import Mathlib

/-!
Verification of the inference pipeline of `src/server.js`: a binary
image classifier (Benigno vs. Maligno) exposed over HTTP.  The numeric
code is embedded shallowly: JavaScript numbers are modelled as rationals
(ℚ), byte buffers as lists of naturals, and the external libraries
(Jimp, the TensorFlow graph model, Node's base64 decoder) as explicit
parameters or concrete total functions.
-/

namespace Server

/-- JavaScript's `Math.round`: rounds to the nearest integer, with
half-way values rounded toward positive infinity, i.e. `⌊x + 1/2⌋`. -/
def jsMathRound (x : ℚ) : ℤ := ⌊x + 1 / 2⌋

/-- Rounding a quantity to two decimal places the way line 116 of
`server.js` does: `Math.round(x * 100) / 100`. -/
def round2 (x : ℚ) : ℚ := (jsMathRound (x * 100) : ℚ) / 100

/-- Rounding half away from zero, written from the spec's words (§4.3)
to compare against the code's `Math.round`-based rounding. -/
def roundHalfAwayFromZero (q : ℚ) : ℤ :=
  if q < 0 then -⌊-q + 1 / 2⌋ else ⌊q + 1 / 2⌋

/-- Byte buffer: Node `Buffer` contents as a list of byte values. -/
abbrev Buffer := List ℕ

/-- Decoded image as exposed by `image.bitmap` in Jimp: width, height
and the interleaved RGBA byte array (lines 67–69 of `server.js`). -/
structure Bitmap where
  width : ℕ
  height : ℕ
  data : List ℕ
  deriving DecidableEq

/-- Invariants Jimp guarantees for any bitmap it hands out: the RGBA
array has exactly `width * height * 4` entries and every entry is a
byte. -/
def Bitmap.WellFormed (bm : Bitmap) : Prop :=
  bm.data.length = bm.width * bm.height * 4 ∧ ∀ v ∈ bm.data, v ≤ 255

/-- Model of the Jimp library as used by `preprocessImage`: `read`
decodes a byte buffer into a bitmap (`none` models a thrown decode
error), and `resize w h` is the deterministic stretch-resize.  The two
propositional fields record the library's documented guarantees: every
decoded or resized bitmap is a well-formed RGBA byte grid and `resize`
produces exactly the requested dimensions. -/
structure Jimp where
  read : Buffer → Option Bitmap
  resize : Bitmap → ℕ → ℕ → Bitmap
  read_wf : ∀ buf bm, read buf = some bm → bm.WellFormed
  resize_wf : ∀ bm w h,
    (resize bm w h).width = w ∧ (resize bm w h).height = h ∧ (resize bm w h).WellFormed

/-- Loop of lines 75–80 of `server.js`: walk the RGBA byte array four
bytes at a time, emitting the three colour channels scaled by `/ 255.0`
and skipping the alpha byte.  Jimp bitmaps always have a length that is
a multiple of four. -/
def rgbaToRgb : List ℕ → List ℚ
  | r :: g :: b :: _ :: rest =>
      (r : ℚ) / 255 :: (g : ℚ) / 255 :: (b : ℚ) / 255 :: rgbaToRgb rest
  | _ => []

/-- Tensor value: a shape together with the flat (row-major) data, as
built by `tf.tensor3d(rgbData, [224, 224, 3]).expandDims(0)`. -/
structure Tensor where
  shape : List ℕ
  data : List ℚ
  deriving DecidableEq

/-- Image Normalizer: `preprocessImage` of `server.js` (lines 58–91).
Any failure inside the `try` block — in particular a Jimp decode
failure — is caught and rethrown as the single decode-error kind
`'Error al procesar la imagen'` (lines 87–90).  On success the resized
224×224 bitmap's RGBA bytes are converted to normalized RGB floats and
packed with the leading batch axis. -/
def preprocessImage (J : Jimp) (imageBuffer : Buffer) : Except String Tensor :=
  match J.read imageBuffer with
  | none => .error "Error al procesar la imagen"
  | some image =>
      let resized := J.resize image 224 224
      .ok { shape := [1, 224, 224, 3], data := rgbaToRgb resized.data }

/-- Result object built by `makePrediction` (lines 114–118 of
`server.js`). -/
structure PredictionResult where
  diagnosis : String
  confidence : ℚ
  rawPrediction : ℚ
  deriving DecidableEq, Repr

/-- Line 112 of `server.js`:
`const finalConfidence = isMalignant ? confidence : 1 - confidence`,
where `isMalignant = confidence > 0.5` (line 110). -/
def finalConfidence (score : ℚ) : ℚ :=
  if 1 / 2 < score then score else 1 - score

/-- Result Interpreter: lines 109–118 of `makePrediction` in
`server.js`.  The raw model output (`predictionData[0]`, called
`confidence` in the source) is thresholded at 0.5 and the final
confidence is rounded to two decimals by
`Math.round(finalConfidence * 100 * 100) / 100`. -/
def interpret (score : ℚ) : PredictionResult :=
  { diagnosis := if 1 / 2 < score then "Maligno" else "Benigno"
    confidence := (jsMathRound (finalConfidence score * 100 * 100) : ℚ) / 100
    rawPrediction := score }

/-- Observable side effects of one request: a `decodeCall` is recorded
when `preprocessImage` runs (decode/normalize work), a `predictCall`
when `model.predict` is invoked. -/
inductive Event where
  | decodeCall
  | predictCall
  deriving DecidableEq

/-- Abstract TensorFlow model: `model.predict` followed by
`prediction.data()`, returning the single raw score, with `.error`
modelling a thrown inference failure. -/
abbrev PredictFn := Tensor → Except String ℚ

/-- Inference Engine plus Result Interpreter: `makePrediction` of
`server.js` (lines 94–124).  The `try` block throws
`'El modelo no está cargado'` when the model is not loaded; that
throw, like any inference failure, is caught at line 120 and rethrown
as the single kind `'Error al realizar la predicción'`.  The second
component records whether `model.predict` was invoked. -/
def makePrediction (isModelLoaded : Bool) (predict : PredictFn) (imageTensor : Tensor) :
    Except String PredictionResult × List Event :=
  if isModelLoaded = false then
    (.error "Error al realizar la predicción", [])
  else
    match predict imageTensor with
    | .error _ => (.error "Error al realizar la predicción", [.predictCall])
    | .ok score => (.ok (interpret score), [.predictCall])

/-- Value of one base64 alphabet character, `none` for characters
outside the alphabet (Node's decoder skips those). -/
def b64Val (c : Char) : Option ℕ :=
  if 'A' ≤ c ∧ c ≤ 'Z' then some (c.toNat - 65)
  else if 'a' ≤ c ∧ c ≤ 'z' then some (c.toNat - 71)
  else if '0' ≤ c ∧ c ≤ '9' then some (c.toNat + 4)
  else if c = '+' then some 62
  else if c = '/' then some 63
  else none

/-- Regroup 6-bit values into bytes, four values to three bytes, with
the shorter final group handled as Node does (a lone trailing value is
dropped). -/
def sextetsToBytes : List ℕ → List ℕ
  | a :: b :: c :: d :: rest =>
      (a * 4 + b / 16) :: (b % 16 * 16 + c / 4) :: (c % 4 * 64 + d) :: sextetsToBytes rest
  | [a, b] => [a * 4 + b / 16]
  | [a, b, c] => [a * 4 + b / 16, b % 16 * 16 + c / 4]
  | _ => []

/-- Node's `Buffer.from(string, 'base64')` (line 168 of `server.js`):
a forgiving, total decoder that ignores characters outside the base64
alphabet (padding included) and never throws, whatever the input
string. -/
def bufferFromBase64 (s : List Char) : Buffer :=
  sextetsToBytes (s.filterMap b64Val)

/-- Line 167 of `server.js`:
`image.replace(/^data:image\/[a-z]+;base64,/, '')` — drop a data-URL
header when the string starts with one, otherwise return the string
unchanged. -/
def stripDataUrlHeader (s : List Char) : List Char :=
  let head := "data:image/".toList
  let mid := ";base64,".toList
  if s.take head.length = head then
    let rest := s.drop head.length
    let letters := rest.takeWhile Char.isLower
    let rest2 := rest.dropWhile Char.isLower
    if letters ≠ [] ∧ rest2.take mid.length = mid then rest2.drop mid.length
    else s
  else s

/-- HTTP response produced by the `/predict` handler, reduced to the
fields the spec talks about: status code and the `error` field for
failures, diagnosis and confidence for successes. -/
inductive Response where
  | ok (diagnosis : String) (confidence : ℚ)
  | clientError (status : ℕ) (error : String)
  | serverError (message : String)
  deriving DecidableEq

/-- Pipeline Orchestrator: the `app.post('/predict')` handler of
`server.js` (lines 145–197).  In order: the readiness check (503), the
missing-image check (`if (!image)` — false for `undefined`/`null`,
modelled by `none`, and for the empty string), the base64 decode whose
`catch` would answer 400 `'Formato de imagen inválido'`, then
`preprocessImage` and `makePrediction`; any error thrown by those two
reaches the outer `catch` (lines 190–196), which answers 500 with the
error's own message unchanged.  The event list records the decode and
inference work performed. -/
def handlePredict (isModelLoaded : Bool) (J : Jimp) (predict : PredictFn)
    (image : Option (List Char)) : Response × List Event :=
  if isModelLoaded = false then
    (.clientError 503 "Modelo no disponible", [])
  else
    match image with
    | none => (.clientError 400 "Imagen requerida", [])
    | some img =>
        if img = [] then
          (.clientError 400 "Imagen requerida", [])
        else
          match (Except.ok (bufferFromBase64 (stripDataUrlHeader img)) : Except String Buffer) with
          | .error _ => (.clientError 400 "Formato de imagen inválido", [])
          | .ok imageBuffer =>
              match preprocessImage J imageBuffer with
              | .error msg => (.serverError msg, [.decodeCall])
              | .ok imageTensor =>
                  match makePrediction isModelLoaded predict imageTensor with
                  | (.error msg, ev) => (.serverError msg, .decodeCall :: ev)
                  | (.ok result, ev) =>
                      (.ok result.diagnosis result.confidence, .decodeCall :: ev)

/-- Lines 24–25 of `server.js`: the model starts unloaded. -/
def initialModelLoaded : Bool := false

/-- State of the `isModelLoaded` flag after `loadModel` (lines 29–55):
`true` only when loading succeeded; a `LoadError` leaves the server
running but permanently not ready. -/
def loadModel (result : Except String PredictFn) : Bool :=
  match result with
  | .ok _ => true
  | .error _ => false

/-- Concrete Jimp instance used by the witnesses: decoding succeeds on
every buffer with a 1×1 black pixel, and resizing to w×h yields an
all-zero RGBA grid of that size. -/
def jimpOk : Jimp where
  read _ := some ⟨1, 1, [0, 0, 0, 255]⟩
  resize _ w h := ⟨w, h, List.replicate (w * h * 4) 0⟩
  read_wf := by
    intro buf bm hbm
    cases hbm
    exact ⟨rfl, by decide⟩
  resize_wf := by
    intro bm w h
    refine ⟨rfl, rfl, List.length_replicate .., ?_⟩
    intro v hv
    have := List.eq_of_mem_replicate hv
    omega

/-- Concrete Jimp instance whose decoder rejects every buffer. -/
def jimpFail : Jimp where
  read _ := none
  resize _ w h := ⟨w, h, List.replicate (w * h * 4) 0⟩
  read_wf := by intro buf bm hbm; cases hbm
  resize_wf := by
    intro bm w h
    refine ⟨rfl, rfl, List.length_replicate .., ?_⟩
    intro v hv
    have := List.eq_of_mem_replicate hv
    omega

/-- Concrete model used by the witnesses: always scores 0.9. -/
def predictConst : PredictFn := fun _ => .ok (9 / 10)

/-- Concrete failing model used by the witnesses. -/
def predictBoom : PredictFn := fun _ => .error "boom"

/-- Tensor produced by `preprocessImage jimpOk` on any buffer, used by
the C2 witness. -/
def tensorWit : Tensor :=
  { shape := [1, 224, 224, 3]
    data := rgbaToRgb ((jimpOk.resize ⟨1, 1, [0, 0, 0, 255]⟩ 224 224).data) }

/-- An RGBA array of length `4 * n` yields exactly `3 * n` tensor
elements. -/
theorem rgbaToRgb_length (n : ℕ) :
    ∀ l : List ℕ, l.length = 4 * n → (rgbaToRgb l).length = 3 * n := by
  induction n with
  | zero =>
    intro l hl
    have : l = [] := List.length_eq_zero.mp (by omega)
    subst this
    rfl
  | succ n ih =>
    intro l hl
    rcases l with _ | ⟨a, l⟩
    · simp only [List.length_nil] at hl; omega
    rcases l with _ | ⟨b, l⟩
    · simp only [List.length_cons, List.length_nil] at hl; omega
    rcases l with _ | ⟨c, l⟩
    · simp only [List.length_cons, List.length_nil] at hl; omega
    rcases l with _ | ⟨d, l⟩
    · simp only [List.length_cons, List.length_nil] at hl; omega
    simp only [List.length_cons] at hl
    simp only [rgbaToRgb, List.length_cons]
    rw [ih l (by omega)]
    omega

/-- Every tensor element produced from a byte array is some byte
divided by 255. -/
theorem rgbaToRgb_mem (l : List ℕ) (hb : ∀ v ∈ l, v ≤ 255) :
    ∀ x ∈ rgbaToRgb l, ∃ v : ℕ, v ≤ 255 ∧ x = (v : ℚ) / 255 := by
  induction l using rgbaToRgb.induct with
  | case1 r g b a rest ih =>
    intro x hx
    simp only [rgbaToRgb, List.mem_cons] at hx
    rcases hx with rfl | rfl | rfl | hx
    · exact ⟨r, hb r (by simp), rfl⟩
    · exact ⟨g, hb g (by simp), rfl⟩
    · exact ⟨b, hb b (by simp), rfl⟩
    · exact ih (fun v hv => hb v (by simp [hv])) x hx
  | case2 l h =>
    intro x hx
    exfalso
    rcases l with _ | ⟨a, _ | ⟨b, _ | ⟨c, _ | ⟨d, rest⟩⟩⟩⟩
    · simp [rgbaToRgb] at hx
    · simp [rgbaToRgb] at hx
    · simp [rgbaToRgb] at hx
    · simp [rgbaToRgb] at hx
    · exact h a b c d rest rfl

/-- Element `3k + c` of the output is byte `4k + c` of the RGBA input
divided by 255: the alpha byte of each pixel (offset 3) is skipped. -/
theorem rgbaToRgb_getD (k : ℕ) :
    ∀ (c : ℕ) (l : List ℕ), c < 3 → 4 * (k + 1) ≤ l.length →
      (rgbaToRgb l).getD (3 * k + c) 0 = (l.getD (4 * k + c) 0 : ℚ) / 255 := by
  induction k with
  | zero =>
    intro c l hc hl
    rcases l with _ | ⟨a, _ | ⟨b, _ | ⟨u, _ | ⟨d, rest⟩⟩⟩⟩ <;>
      simp only [List.length_nil, List.length_cons] at hl <;> try omega
    interval_cases c <;> rfl
  | succ k ih =>
    intro c l hc hl
    rcases l with _ | ⟨a, _ | ⟨b, _ | ⟨u, _ | ⟨d, rest⟩⟩⟩⟩ <;>
      simp only [List.length_nil, List.length_cons] at hl <;> try omega
    have h3 : 3 * (k + 1) + c = 3 * k + c + 1 + 1 + 1 := by ring
    have h4 : 4 * (k + 1) + c = 4 * k + c + 1 + 1 + 1 + 1 := by ring
    simp only [rgbaToRgb, h3, h4, List.getD_cons_succ]
    exact ih c rest hc (by omega)

/-- The percentage fed to the rounding step is at least 50·100, hence
the rounded confidence is at least 50. -/
theorem confidence_ge_fifty (s : ℚ) : 50 ≤ (interpret s).confidence := by
  have hf : (1 : ℚ) / 2 ≤ finalConfidence s := by
    unfold finalConfidence
    split <;> linarith
  have harg : (5000 : ℚ) ≤ finalConfidence s * 100 * 100 := by linarith
  have hfloor : (5000 : ℤ) ≤ jsMathRound (finalConfidence s * 100 * 100) := by
    unfold jsMathRound
    exact Int.le_floor.mpr (by push_cast; linarith)
  show 50 ≤ (jsMathRound (finalConfidence s * 100 * 100) : ℚ) / 100
  rw [le_div_iff₀ (by norm_num : (0 : ℚ) < 100)]
  calc (50 : ℚ) * 100 = ((5000 : ℤ) : ℚ) := by norm_num
    _ ≤ _ := by exact_mod_cast hfloor

/-- Unfolding of `interpret` on the malignant branch. -/
theorem interpret_pos (s : ℚ) (h : 1 / 2 < s) :
    interpret s = ⟨"Maligno", round2 (s * 100), s⟩ := by
  unfold interpret finalConfidence round2
  simp only [if_pos h]

/-- Unfolding of `interpret` on the benign branch. -/
theorem interpret_nonpos (s : ℚ) (h : ¬ 1 / 2 < s) :
    interpret s = ⟨"Benigno", round2 ((1 - s) * 100), s⟩ := by
  unfold interpret finalConfidence round2
  simp only [if_neg h]

/-- C1: the Result Interpreter's decision rule.  A score above 0.5 is
labelled Maligno with confidence `score * 100` (rounded to two decimals
as §4.3 of the spec prescribes); otherwise the label is Benigno with
confidence `(1 - score) * 100`; at exactly 0.5 the tie breaks to
Benigno with confidence exactly 50.00. -/
theorem C1_decision_rule (s : ℚ) :
    (if 1 / 2 < s then
        (interpret s).diagnosis = "Maligno" ∧
        (interpret s).confidence = round2 (s * 100)
      else
        (interpret s).diagnosis = "Benigno" ∧
        (interpret s).confidence = round2 ((1 - s) * 100)) ∧
    (interpret (1 / 2)).diagnosis = "Benigno" ∧
    (interpret (1 / 2)).confidence = 50 := by
  refine ⟨?_, ?_, ?_⟩
  · split
    · next h => rw [interpret_pos s h]; exact ⟨rfl, rfl⟩
    · next h => rw [interpret_nonpos s h]; exact ⟨rfl, rfl⟩
  · rw [interpret_nonpos (1 / 2) (by norm_num)]
  · rw [interpret_nonpos (1 / 2) (by norm_num)]
    show (jsMathRound ((1 - 1 / 2) * 100 * 100) : ℚ) / 100 = 50
    norm_num [jsMathRound]

/-- C7: scores symmetric about the 0.5 threshold get opposite labels
and the same rounded confidence. -/
theorem C7_symmetry_around_half (x : ℚ) (h : x ≠ 1 / 2) :
    ((interpret x).diagnosis = "Maligno" ∧ (interpret (1 - x)).diagnosis = "Benigno" ∨
      (interpret x).diagnosis = "Benigno" ∧ (interpret (1 - x)).diagnosis = "Maligno") ∧
    (interpret x).confidence = (interpret (1 - x)).confidence := by
  rcases lt_or_gt_of_ne h with hlt | hgt
  · have h1 : ¬ 1 / 2 < x := by linarith
    have h2 : 1 / 2 < 1 - x := by linarith
    rw [interpret_nonpos x h1, interpret_pos (1 - x) h2]
    exact ⟨Or.inr ⟨rfl, rfl⟩, rfl⟩
  · have h1 : 1 / 2 < x := hgt
    have h2 : ¬ 1 / 2 < 1 - x := by linarith
    rw [interpret_pos x h1, interpret_nonpos (1 - x) h2]
    refine ⟨Or.inl ⟨rfl, rfl⟩, ?_⟩
    show round2 (x * 100) = round2 ((1 - (1 - x)) * 100)
    congr 1
    ring

/-- Witness for C7 at the concrete score 0.9. -/
theorem C7_symmetry_around_half_witness :
    ((interpret (9 / 10)).diagnosis = "Maligno" ∧
      (interpret (1 - 9 / 10)).diagnosis = "Benigno" ∨
      (interpret (9 / 10)).diagnosis = "Benigno" ∧
      (interpret (1 - 9 / 10)).diagnosis = "Maligno") ∧
    (interpret (9 / 10)).confidence = (interpret (1 - 9 / 10)).confidence :=
  C7_symmetry_around_half (9 / 10) (by norm_num)

/-- C8: the returned confidence is the underlying percentage
(`finalConfidence * 100`) rounded to exactly two decimal places, and
the code's `Math.round`-based rounding agrees with
round-half-away-from-zero here (the argument is always positive, where
JavaScript's round-half-up toward +∞ and round-half-away-from-zero
coincide). -/
theorem C8_rounds_two_decimals_half_away (s : ℚ) :
    (interpret s).confidence =
      (roundHalfAwayFromZero ((finalConfidence s * 100) * 100) : ℚ) / 100 := by
  have hf : (1 : ℚ) / 2 ≤ finalConfidence s := by
    unfold finalConfidence
    split <;> linarith
  have hpos : ¬ finalConfidence s * 100 * 100 < 0 := by linarith
  show (jsMathRound (finalConfidence s * 100 * 100) : ℚ) / 100 = _
  unfold roundHalfAwayFromZero jsMathRound
  rw [if_neg hpos]

/-- C9: before rounding, the confidence equals
`max(score, 1 - score) * 100`, so the returned confidence is always at
least 50 and in particular never negative. -/
theorem C9_confidence_is_max_branch (s : ℚ) :
    finalConfidence s * 100 = max s (1 - s) * 100 ∧
    50 ≤ (interpret s).confidence ∧
    0 ≤ (interpret s).confidence := by
  refine ⟨?_, confidence_ge_fifty s, by linarith [confidence_ge_fifty s]⟩
  unfold finalConfidence
  split
  · next h => rw [max_eq_left (by linarith)]
  · next h => rw [max_eq_right (by linarith)]

/-- Refutation for C6: the claim allows the confidence of an
out-of-range score to go negative, but no raw score whatsoever (in
particular none outside [0, 1]) yields a negative confidence. -/
theorem C6_counterexample_no_negative_confidence :
    ¬ ∃ s : ℚ, (s < 0 ∨ 1 < s) ∧ (interpret s).confidence < 0 := by
  rintro ⟨s, -, hneg⟩
  have := confidence_ge_fifty s
  linarith

/-- C6 (amended): out-of-range scores are not rejected — the same
threshold-and-confidence arithmetic applies — and no clamping is
performed, so the confidence can exceed 100 (e.g. at score 2); but it
can never go negative, being always at least 50. -/
theorem C6_amended_unclamped_arithmetic :
    (∀ s : ℚ, s < 0 ∨ 1 < s →
      (if 1 / 2 < s then
          (interpret s).diagnosis = "Maligno" ∧
          (interpret s).confidence = round2 (s * 100)
        else
          (interpret s).diagnosis = "Benigno" ∧
          (interpret s).confidence = round2 ((1 - s) * 100))) ∧
    (∃ s : ℚ, 1 < s ∧ 100 < (interpret s).confidence) ∧
    (∀ s : ℚ, 50 ≤ (interpret s).confidence) := by
  refine ⟨?_, ⟨2, by norm_num, ?_⟩, confidence_ge_fifty⟩
  · intro s _
    split
    · next h => rw [interpret_pos s h]; exact ⟨rfl, rfl⟩
    · next h => rw [interpret_nonpos s h]; exact ⟨rfl, rfl⟩
  · rw [interpret_pos 2 (by norm_num)]
    show (jsMathRound (2 * 100 * 100) : ℚ) / 100 > 100
    norm_num [jsMathRound, round2]

/-- C2: on every buffer the decoder accepts, `preprocessImage` yields
a tensor of shape (1, 224, 224, 3) with exactly 224·224·3 elements,
each a channel byte divided by 255 and hence in [0, 1]; element
`3k + c` comes from byte `4k + c` of the resized RGBA grid, so the
alpha byte of every pixel is discarded. -/
theorem C2_normalize_shape_range (J : Jimp) (buf : Buffer) (t : Tensor)
    (h : preprocessImage J buf = .ok t) :
    t.shape = [1, 224, 224, 3] ∧
    t.data.length = 224 * 224 * 3 ∧
    (∀ x ∈ t.data, (∃ v : ℕ, v ≤ 255 ∧ x = (v : ℚ) / 255) ∧ 0 ≤ x ∧ x ≤ 1) ∧
    ∃ image, J.read buf = some image ∧
      ∀ k c : ℕ, k < 224 * 224 → c < 3 →
        t.data.getD (3 * k + c) 0 =
          ((J.resize image 224 224).data.getD (4 * k + c) 0 : ℚ) / 255 := by
  unfold preprocessImage at h
  cases hread : J.read buf with
  | none =>
    rw [hread] at h
    simp at h
  | some image =>
    rw [hread] at h
    cases h
    obtain ⟨hw, hh, hlen, hbytes⟩ := J.resize_wf image 224 224
    have hlen4 : (J.resize image 224 224).data.length = 4 * (224 * 224) := by
      rw [hlen, hw, hh]
    refine ⟨rfl, ?_, ?_, image, rfl, ?_⟩
    · show (rgbaToRgb (J.resize image 224 224).data).length = 224 * 224 * 3
      rw [rgbaToRgb_length (224 * 224) _ hlen4]
    · intro x hx
      obtain ⟨v, hv, rfl⟩ := rgbaToRgb_mem _ hbytes x hx
      refine ⟨⟨v, hv, rfl⟩, by positivity, ?_⟩
      rw [div_le_one (by norm_num)]
      exact_mod_cast Nat.le_of_lt_succ (by omega)
    · intro k c hk hc
      exact rgbaToRgb_getD k c _ hc (by omega)

/-- Witness for C2: `jimpOk` decodes the empty buffer and
`preprocessImage` produces `tensorWit`. -/
theorem C2_normalize_shape_range_witness :
    tensorWit.shape = [1, 224, 224, 3] ∧
    tensorWit.data.length = 224 * 224 * 3 ∧
    (∀ x ∈ tensorWit.data, (∃ v : ℕ, v ≤ 255 ∧ x = (v : ℚ) / 255) ∧ 0 ≤ x ∧ x ≤ 1) ∧
    ∃ image, jimpOk.read [] = some image ∧
      ∀ k c : ℕ, k < 224 * 224 → c < 3 →
        tensorWit.data.getD (3 * k + c) 0 =
          ((jimpOk.resize image 224 224).data.getD (4 * k + c) 0 : ℚ) / 255 :=
  C2_normalize_shape_range jimpOk [] tensorWit rfl

/-- Reduction of the `/predict` handler once the readiness and
missing-image checks have passed: the response is decided by
`preprocessImage` and then `makePrediction`. -/
theorem handlePredict_true_eq (J : Jimp) (predict : PredictFn) (img : List Char)
    (h1 : img ≠ []) :
    handlePredict true J predict (some img) =
      match preprocessImage J (bufferFromBase64 (stripDataUrlHeader img)) with
      | .error msg => (Response.serverError msg, [Event.decodeCall])
      | .ok imageTensor =>
          match makePrediction true predict imageTensor with
          | (.error msg, ev) => (Response.serverError msg, Event.decodeCall :: ev)
          | (.ok result, ev) =>
              (Response.ok result.diagnosis result.confidence, Event.decodeCall :: ev) := by
  unfold handlePredict
  simp [h1]

/-- C3: when the bytes are not a decodable image, the request fails
with the decode-error kind and `model.predict` is never invoked. -/
theorem C3_decode_failure_no_inference (J : Jimp) (predict : PredictFn)
    (img : List Char) (h1 : img ≠ [])
    (h2 : J.read (bufferFromBase64 (stripDataUrlHeader img)) = none) :
    handlePredict true J predict (some img) =
      (.serverError "Error al procesar la imagen", [.decodeCall]) ∧
    Event.predictCall ∉ (handlePredict true J predict (some img)).2 := by
  have hpre : preprocessImage J (bufferFromBase64 (stripDataUrlHeader img)) =
      .error "Error al procesar la imagen" := by
    unfold preprocessImage
    rw [h2]
  have hmain : handlePredict true J predict (some img) =
      (.serverError "Error al procesar la imagen", [.decodeCall]) := by
    rw [handlePredict_true_eq J predict img h1, hpre]
  exact ⟨hmain, by rw [hmain]; simp⟩

/-- Witness for C3 on a one-character string and the always-failing
decoder. -/
theorem C3_decode_failure_no_inference_witness :
    handlePredict true jimpFail predictConst (some ['x']) =
      (.serverError "Error al procesar la imagen", [.decodeCall]) ∧
    Event.predictCall ∉ (handlePredict true jimpFail predictConst (some ['x'])).2 :=
  C3_decode_failure_no_inference jimpFail predictConst ['x'] (by decide) rfl

/-- C4: while the model is not loaded — the initial state, and the
state `loadModel` leaves after a load failure — every request is
answered 503 `'Modelo no disponible'` with no decode, normalize or
inference work performed. -/
theorem C4_not_ready_fails_fast :
    initialModelLoaded = false ∧
    (∀ e : String, loadModel (.error e) = false) ∧
    ∀ (J : Jimp) (predict : PredictFn) (image : Option (List Char)),
      handlePredict false J predict image =
        (.clientError 503 "Modelo no disponible", []) :=
  ⟨rfl, fun _ => rfl, fun _ _ _ => rfl⟩

/-- C5: failures short-circuit the pipeline and their error kind
reaches the boundary unchanged.  A decode failure answers 500 with
exactly the message `preprocessImage` raised and the engine is never
invoked; an inference failure answers 500 with exactly the kind
`makePrediction` raised, each stage having run exactly once (no
retry). -/
theorem C5_error_propagation_short_circuit (J : Jimp) (predict : PredictFn)
    (img : List Char) (h1 : img ≠ []) :
    (∀ msg, preprocessImage J (bufferFromBase64 (stripDataUrlHeader img)) = .error msg →
      handlePredict true J predict (some img) = (.serverError msg, [.decodeCall])) ∧
    (∀ t e, preprocessImage J (bufferFromBase64 (stripDataUrlHeader img)) = .ok t →
      predict t = .error e →
      (makePrediction true predict t).1 = .error "Error al realizar la predicción" ∧
      handlePredict true J predict (some img) =
        (.serverError "Error al realizar la predicción", [.decodeCall, .predictCall])) := by
  constructor
  · intro msg hmsg
    rw [handlePredict_true_eq J predict img h1, hmsg]
  · intro t e hok hpred
    have hmp : makePrediction true predict t =
        (.error "Error al realizar la predicción", [.predictCall]) := by
      unfold makePrediction
      rw [hpred]
      simp
    refine ⟨by rw [hmp], ?_⟩
    rw [handlePredict_true_eq J predict img h1, hok]
    simp [hmp]

/-- Witness for C5 with the always-failing decoder and model. -/
theorem C5_error_propagation_short_circuit_witness :
    (∀ msg, preprocessImage jimpFail (bufferFromBase64 (stripDataUrlHeader ['x'])) = .error msg →
      handlePredict true jimpFail predictBoom (some ['x']) = (.serverError msg, [.decodeCall])) ∧
    (∀ t e, preprocessImage jimpFail (bufferFromBase64 (stripDataUrlHeader ['x'])) = .ok t →
      predictBoom t = .error e →
      (makePrediction true predictBoom t).1 = .error "Error al realizar la predicción" ∧
      handlePredict true jimpFail predictBoom (some ['x']) =
        (.serverError "Error al realizar la predicción", [.decodeCall, .predictCall])) :=
  C5_error_propagation_short_circuit jimpFail predictBoom ['x'] (by decide)

/-- C10: the 400 `'Formato de imagen inválido'` branch is dead code
for every non-empty image string, because the modelled
`Buffer.from(string, 'base64')` is total; a string that is not valid
base64 just decodes to some byte buffer, and when those bytes are not
a decodable image the request surfaces as the decode failure
instead. -/
theorem C10_invalid_base64_branch_unreachable (J : Jimp) (predict : PredictFn)
    (img : List Char) (h1 : img ≠ []) :
    (∀ loaded : Bool,
      (handlePredict loaded J predict (some img)).1 ≠
        .clientError 400 "Formato de imagen inválido") ∧
    (J.read (bufferFromBase64 (stripDataUrlHeader img)) = none →
      handlePredict true J predict (some img) =
        (.serverError "Error al procesar la imagen", [.decodeCall])) := by
  constructor
  · intro loaded
    cases loaded
    · simp [handlePredict]
    · rw [handlePredict_true_eq J predict img h1]
      cases hpre : preprocessImage J (bufferFromBase64 (stripDataUrlHeader img)) with
      | error msg => simp
      | ok t =>
        rcases hmp : makePrediction true predict t with ⟨r, ev⟩
        cases r <;> simp [hmp]
  · intro h2
    have hpre : preprocessImage J (bufferFromBase64 (stripDataUrlHeader img)) =
        .error "Error al procesar la imagen" := by
      unfold preprocessImage
      rw [h2]
    rw [handlePredict_true_eq J predict img h1, hpre]

/-- Witness for C10 on a one-character non-base64 string. -/
theorem C10_invalid_base64_branch_unreachable_witness :
    (∀ loaded : Bool,
      (handlePredict loaded jimpFail predictConst (some ['x'])).1 ≠
        .clientError 400 "Formato de imagen inválido") ∧
    (jimpFail.read (bufferFromBase64 (stripDataUrlHeader ['x'])) = none →
      handlePredict true jimpFail predictConst (some ['x']) =
        (.serverError "Error al procesar la imagen", [.decodeCall])) :=
  C10_invalid_base64_branch_unreachable jimpFail predictConst ['x'] (by decide)

end Server
